import Mathlib

/-!
Verification of the Vwap recipe-exchange data model (src/backend/models.py).

The Python model layer stores several collection-valued fields as JSON text
columns and exposes them through get/set accessors; entities project to
dictionaries via to_dict methods.  This development shallowly embeds:

* a JSON value type with an encoder (json.dumps) and a total, fuel-based
  decoder (json.loads, returning Option to model decode exceptions);
* the four entities (User, Recipe, Review, RecipeSwap) with their columns,
  accessors and to_dict projections;
* a relational state with the declared cascade and uniqueness rules.

Machine reals are modelled as rationals; Python round-half-to-even is
modelled exactly on rationals.
-/

/-- JSON values as produced/consumed by the json module.  Numbers are
modelled as integers (all numeric data in this model layer is integral). -/
inductive Json where
  | null : Json
  | bool (b : Bool) : Json
  | num (n : Int) : Json
  | str (s : String) : Json
  | arr (elems : List Json) : Json
  | obj (fields : List (String × Json)) : Json

mutual

/-- Size measure used as parser fuel bound. -/
def jsize : Json → Nat
  | .null | .bool _ | .num _ | .str _ => 1
  | .arr xs => lsize xs + 1
  | .obj kvs => msize kvs + 1

/-- Size of a list of JSON values. -/
def lsize : List Json → Nat
  | [] => 0
  | v :: vs => jsize v + lsize vs + 1

/-- Size of a list of JSON object members. -/
def msize : List (String × Json) → Nat
  | [] => 0
  | (_, v) :: kvs => jsize v + msize kvs + 1

end

/-- Decimal digit characters of a natural number (big-endian). -/
def natToChars (n : Nat) : List Char :=
  if n = 0 then ['0'] else ((Nat.digits 10 n).map Nat.digitChar).reverse

/-- Decimal rendering of an integer. -/
def encInt (i : Int) : List Char :=
  if i < 0 then '-' :: natToChars i.natAbs else natToChars i.natAbs

/-- String escaping as performed by json.dumps (quote, backslash and
common control characters; other characters pass through). -/
def escChar (c : Char) : List Char :=
  if c = '"' then ['\\', '"']
  else if c = '\\' then ['\\', '\\']
  else if c = '\n' then ['\\', 'n']
  else if c = '\t' then ['\\', 't']
  else if c = '\r' then ['\\', 'r']
  else if c = '\x08' then ['\\', 'b']
  else if c = '\x0c' then ['\\', 'f']
  else [c]

/-- Escape a whole string body. -/
def escString (s : List Char) : List Char := s.flatMap escChar

mutual

/-- json.dumps rendering of a JSON value (default separators of the
Python json module: comma-space and colon-space). -/
def encJson : Json → List Char
  | .null => 'n' :: ['u', 'l', 'l']
  | .bool true => 't' :: ['r', 'u', 'e']
  | .bool false => 'f' :: ['a', 'l', 's', 'e']
  | .num n => encInt n
  | .str s => '"' :: escString s.data ++ ['"']
  | .arr xs => '[' :: encList xs ++ [']']
  | .obj kvs => '\x7b' :: encMembers kvs ++ ['\x7d']

/-- Comma-space separated rendering of array elements. -/
def encList : List Json → List Char
  | [] => []
  | [v] => encJson v
  | v :: vs => encJson v ++ ',' :: ' ' :: encList vs

/-- Comma-space separated rendering of object members. -/
def encMembers : List (String × Json) → List Char
  | [] => []
  | [(k, v)] => '"' :: escString k.data ++ '"' :: ':' :: ' ' :: encJson v
  | (k, v) :: kvs =>
      ('"' :: escString k.data ++ '"' :: ':' :: ' ' :: encJson v)
        ++ ',' :: ' ' :: encMembers kvs

end

/-- Whitespace characters skipped by the decoder. -/
def isWsChar (c : Char) : Bool := c = ' ' || c = '\n' || c = '\t' || c = '\r'

/-- Skip leading whitespace. -/
def skipWs : List Char → List Char
  | [] => []
  | c :: cs => if isWsChar c then skipWs cs else c :: cs

/-- Drop an expected literal prefix, or fail. -/
def dropPrefixChars : List Char → List Char → Option (List Char)
  | [], cs => some cs
  | _ :: _, [] => none
  | p :: ps, c :: cs => if c = p then dropPrefixChars ps cs else none

/-- Inverse of escChar on the character following a backslash. -/
def unescChar (c : Char) : Option Char :=
  if c = '"' then some '"'
  else if c = '\\' then some '\\'
  else if c = '/' then some '/'
  else if c = 'n' then some '\n'
  else if c = 't' then some '\t'
  else if c = 'r' then some '\r'
  else if c = 'b' then some '\x08'
  else if c = 'f' then some '\x0c'
  else none

/-- Parse a string body up to the closing quote, undoing escapes. -/
def parseStrBody : List Char → Option (List Char × List Char)
  | [] => none
  | c :: rest =>
    if c = '"' then some ([], rest)
    else if c = '\\' then
      match rest with
      | [] => none
      | e :: rest2 =>
        match unescChar e with
        | some d => (parseStrBody rest2).map (fun p => (d :: p.1, p.2))
        | none => none
    else (parseStrBody rest).map (fun p => (c :: p.1, p.2))

/-- Split a leading run of decimal digits from the input. -/
def spanDigits : List Char → List Char × List Char
  | [] => ([], [])
  | c :: cs =>
    if c.isDigit then
      let p := spanDigits cs
      (c :: p.1, p.2)
    else ([], c :: cs)

/-- Numeric value of a digit character. -/
def digitVal (c : Char) : Nat := c.toNat - 48

/-- Decimal value of a digit string (big-endian). -/
def charsToNat (ds : List Char) : Nat :=
  ds.foldl (fun a c => a * 10 + digitVal c) 0

mutual

/-- json.loads, modelled as a fuel-bounded recursive-descent decoder.
Returns the decoded value with the unconsumed input, or none where the
Python decoder would raise. -/
def parseVal : Nat → List Char → Option (Json × List Char)
  | 0, _ => none
  | fuel + 1, cs =>
    match cs with
    | [] => none
    | c :: rest =>
      if c = 'n' then
        match dropPrefixChars ['u', 'l', 'l'] rest with
        | some r => some (.null, r)
        | none => none
      else if c = 't' then
        match dropPrefixChars ['r', 'u', 'e'] rest with
        | some r => some (.bool true, r)
        | none => none
      else if c = 'f' then
        match dropPrefixChars ['a', 'l', 's', 'e'] rest with
        | some r => some (.bool false, r)
        | none => none
      else if c = '"' then
        match parseStrBody rest with
        | some (s, r) => some (.str (String.mk s), r)
        | none => none
      else if c = '[' then
        match skipWs rest with
        | [] => none
        | d :: r =>
          if d = ']' then some (.arr [], r)
          else
            match parseElems fuel (d :: r) with
            | some (xs, r2) => some (.arr xs, r2)
            | none => none
      else if c = '\x7b' then
        match skipWs rest with
        | [] => none
        | d :: r =>
          if d = '\x7d' then some (.obj [], r)
          else
            match parseMembers fuel (d :: r) with
            | some (kvs, r2) => some (.obj kvs, r2)
            | none => none
      else if c = '-' then
        match spanDigits rest with
        | ([], _) => none
        | (ds, r) => some (.num (-(charsToNat ds : Int)), r)
      else if c.isDigit then
        some (.num (charsToNat (spanDigits (c :: rest)).1), (spanDigits (c :: rest)).2)
      else none

/-- Parse one or more comma-separated array elements and the closing
bracket. -/
def parseElems : Nat → List Char → Option (List Json × List Char)
  | 0, _ => none
  | fuel + 1, cs =>
    match parseVal fuel cs with
    | none => none
    | some (v, r) =>
      match skipWs r with
      | [] => none
      | d :: r2 =>
        if d = ',' then
          match parseElems fuel (skipWs r2) with
          | some (vs, r3) => some (v :: vs, r3)
          | none => none
        else if d = ']' then some ([v], r2)
        else none

/-- Parse one or more comma-separated object members and the closing
brace. -/
def parseMembers : Nat → List Char → Option (List (String × Json) × List Char)
  | 0, _ => none
  | fuel + 1, cs =>
    match cs with
    | [] => none
    | c :: rest =>
      if c = '"' then
        match parseStrBody rest with
        | none => none
        | some (k, r) =>
          match skipWs r with
          | [] => none
          | d :: r2 =>
            if d = ':' then
              match parseVal fuel (skipWs r2) with
              | none => none
              | some (v, r3) =>
                match skipWs r3 with
                | [] => none
                | e :: r4 =>
                  if e = ',' then
                    match parseMembers fuel (skipWs r4) with
                    | some (kvs, r5) => some ((String.mk k, v) :: kvs, r5)
                    | none => none
                  else if e = '\x7d' then some ([(String.mk k, v)], r4)
                  else none
            else none
      else none

end

/-- json.dumps on a JSON value. -/
def json_dumps (v : Json) : String := String.mk (encJson v)

/-- json.loads on a string: decode a single JSON document, requiring the
whole input to be consumed; none models a raised JSONDecodeError. -/
def json_loads (s : String) : Option Json :=
  match parseVal (s.data.length + 1) s.data with
  | some (v, r) => if r = [] then some v else none
  | none => none

/-! ### Decoder correctness: digits -/

theorem digitVal_digitChar (d : Nat) (h : d < 10) : digitVal (Nat.digitChar d) = d := by
  interval_cases d <;> decide

theorem isDigit_digitChar (d : Nat) (h : d < 10) : (Nat.digitChar d).isDigit = true := by
  interval_cases d <;> decide

theorem natToChars_ne_nil (n : Nat) : natToChars n ≠ [] := by
  unfold natToChars
  split
  · simp
  · simpa using Nat.digits_ne_nil_iff_ne_zero.mpr (by assumption)

theorem natToChars_all_digits (n : Nat) :
    ∀ c ∈ natToChars n, c.isDigit = true := by
  intro c hc
  unfold natToChars at hc
  split at hc
  · simp at hc
    subst hc
    decide
  · rw [List.mem_reverse, List.mem_map] at hc
    obtain ⟨d, hd, rfl⟩ := hc
    exact isDigit_digitChar d (Nat.digits_lt_base (by norm_num) hd)

theorem charsToNat_rev_map (L : List Nat) (h : ∀ d ∈ L, d < 10) :
    charsToNat ((L.map Nat.digitChar).reverse) = Nat.ofDigits 10 L := by
  induction L with
  | nil => simp [charsToNat]
  | cons d L ih =>
    have hd : d < 10 := h d (by simp)
    have hL : ∀ e ∈ L, e < 10 := fun e he => h e (by simp [he])
    simp only [List.map_cons, List.reverse_cons, charsToNat, List.foldl_append,
      List.foldl_cons, List.foldl_nil, Nat.ofDigits_cons]
    rw [show (L.map Nat.digitChar).reverse.foldl (fun a c => a * 10 + digitVal c) 0
        = charsToNat ((L.map Nat.digitChar).reverse) from rfl, ih hL,
      digitVal_digitChar d hd]
    ring

theorem charsToNat_natToChars (n : Nat) : charsToNat (natToChars n) = n := by
  unfold natToChars
  split
  · subst_vars; decide
  · rw [charsToNat_rev_map _ (fun d hd => Nat.digits_lt_base (by norm_num) hd)]
    exact_mod_cast Nat.ofDigits_digits 10 n

theorem spanDigits_append (ds rest : List Char)
    (hds : ∀ c ∈ ds, c.isDigit = true)
    (hrest : rest = [] ∨ ∃ c cs, rest = c :: cs ∧ c.isDigit = false) :
    spanDigits (ds ++ rest) = (ds, rest) := by
  induction ds with
  | nil =>
    rcases hrest with rfl | ⟨c, cs, rfl, hc⟩
    · rfl
    · simp [spanDigits, hc]
  | cons c ds ih =>
    have hc : c.isDigit = true := hds c (by simp)
    have := ih (fun d hd => hds d (by simp [hd]))
    simp [spanDigits, hc, this]

/-! ### Decoder correctness: characters and strings -/
theorem digit_ne (c : Char) (h : c.isDigit = true) (d : Char) (hd : d.isDigit = false) :
    c ≠ d := by
  rintro rfl
  rw [h] at hd
  exact absurd hd (by decide)

theorem isWsChar_false_of_digit (c : Char) (h : c.isDigit = true) : isWsChar c = false := by
  simp only [isWsChar, Bool.or_eq_false_iff, decide_eq_false_iff_not]
  exact ⟨⟨⟨digit_ne c h ' ' (by decide), digit_ne c h '\n' (by decide)⟩,
    digit_ne c h '\t' (by decide)⟩, digit_ne c h '\r' (by decide)⟩

theorem skipWs_not_ws (c : Char) (cs : List Char) (h : isWsChar c = false) :
    skipWs (c :: cs) = c :: cs := by
  rw [skipWs.eq_def]
  simp [h]

theorem parseStrBody_escaped (e d : Char) (ts : List Char) (h : unescChar e = some d) :
    parseStrBody ('\\' :: e :: ts) = (parseStrBody ts).map (fun p => (d :: p.1, p.2)) := by
  rw [parseStrBody.eq_def]
  simp [h]

theorem parseStrBody_plain (c : Char) (ts : List Char) (h1 : c ≠ '"') (h2 : c ≠ '\\') :
    parseStrBody (c :: ts) = (parseStrBody ts).map (fun p => (c :: p.1, p.2)) := by
  rw [parseStrBody.eq_def]
  simp [h1, h2]

theorem parseStrBody_esc (s rest : List Char) :
    parseStrBody (escString s ++ '"' :: rest) = some (s, rest) := by
  induction s with
  | nil =>
    rw [show escString [] ++ '"' :: rest = '"' :: rest from rfl, parseStrBody.eq_def]
    simp
  | cons c s ih =>
    have hsplit : escString (c :: s) ++ '"' :: rest
        = escChar c ++ (escString s ++ '"' :: rest) := by
      simp [escString]
    rw [hsplit]
    by_cases h1 : c = '"'
    · subst h1
      rw [show escChar '"' ++ (escString s ++ '"' :: rest)
          = '\\' :: '"' :: (escString s ++ '"' :: rest) from rfl]
      rw [parseStrBody_escaped '"' '"' (escString s ++ '"' :: rest) (by decide), ih]
      rfl
    by_cases h2 : c = '\\'
    · subst h2
      rw [show escChar '\\' ++ (escString s ++ '"' :: rest)
          = '\\' :: '\\' :: (escString s ++ '"' :: rest) from rfl]
      rw [parseStrBody_escaped '\\' '\\' (escString s ++ '"' :: rest) (by decide), ih]
      rfl
    by_cases h3 : c = '\n'
    · subst h3
      rw [show escChar '\n' ++ (escString s ++ '"' :: rest)
          = '\\' :: 'n' :: (escString s ++ '"' :: rest) from rfl]
      rw [parseStrBody_escaped 'n' '\n' (escString s ++ '"' :: rest) (by decide), ih]
      rfl
    by_cases h4 : c = '\t'
    · subst h4
      rw [show escChar '\t' ++ (escString s ++ '"' :: rest)
          = '\\' :: 't' :: (escString s ++ '"' :: rest) from rfl]
      rw [parseStrBody_escaped 't' '\t' (escString s ++ '"' :: rest) (by decide), ih]
      rfl
    by_cases h5 : c = '\r'
    · subst h5
      rw [show escChar '\r' ++ (escString s ++ '"' :: rest)
          = '\\' :: 'r' :: (escString s ++ '"' :: rest) from rfl]
      rw [parseStrBody_escaped 'r' '\r' (escString s ++ '"' :: rest) (by decide), ih]
      rfl
    by_cases h6 : c = '\x08'
    · subst h6
      rw [show escChar '\x08' ++ (escString s ++ '"' :: rest)
          = '\\' :: 'b' :: (escString s ++ '"' :: rest) from rfl]
      rw [parseStrBody_escaped 'b' '\x08' (escString s ++ '"' :: rest) (by decide), ih]
      rfl
    by_cases h7 : c = '\x0c'
    · subst h7
      rw [show escChar '\x0c' ++ (escString s ++ '"' :: rest)
          = '\\' :: 'f' :: (escString s ++ '"' :: rest) from rfl]
      rw [parseStrBody_escaped 'f' '\x0c' (escString s ++ '"' :: rest) (by decide), ih]
      rfl
    · rw [show escChar c = [c] from by simp [escChar, h1, h2, h3, h4, h5, h6, h7]]
      rw [show [c] ++ (escString s ++ '"' :: rest) = c :: (escString s ++ '"' :: rest) from rfl]
      rw [parseStrBody_plain c (escString s ++ '"' :: rest) h1 h2, ih]
      rfl

/-! ### Decoder correctness: dispatch lemmas -/

theorem encInt_head (n : Int) :
    ∃ c cs, encInt n = c :: cs ∧ (c.isDigit = true ∨ c = '-') := by
  unfold encInt
  split
  · exact ⟨'-', _, rfl, Or.inr rfl⟩
  · cases h : natToChars n.natAbs with
    | nil => exact absurd h (natToChars_ne_nil _)
    | cons c cs =>
      refine ⟨c, cs, rfl, Or.inl (natToChars_all_digits n.natAbs c ?_)⟩
      rw [h]
      exact List.mem_cons_self c cs

theorem encJson_head (v : Json) :
    ∃ c cs, encJson v = c :: cs ∧ isWsChar c = false ∧ c ≠ ']' ∧ c ≠ '\x7d' := by
  cases v with
  | null =>
    exact ⟨'n', ['u', 'l', 'l'], by simp [encJson], by decide, by decide, by decide⟩
  | bool b =>
    cases b with
    | false =>
      exact ⟨'f', ['a', 'l', 's', 'e'], by simp [encJson], by decide, by decide, by decide⟩
    | true =>
      exact ⟨'t', ['r', 'u', 'e'], by simp [encJson], by decide, by decide, by decide⟩
  | num n =>
    obtain ⟨c, cs, he, hd⟩ := encInt_head n
    have he2 : encJson (.num n) = c :: cs := by
      rw [show encJson (.num n) = encInt n from by simp [encJson], he]
    rcases hd with hd | rfl
    · exact ⟨c, cs, he2, isWsChar_false_of_digit c hd,
        digit_ne c hd ']' (by decide), digit_ne c hd '\x7d' (by decide)⟩
    · exact ⟨'-', cs, he2, by decide, by decide, by decide⟩
  | str s =>
    exact ⟨'"', escString s.data ++ ['"'], by simp [encJson], by decide, by decide, by decide⟩
  | arr xs =>
    exact ⟨'[', encList xs ++ [']'], by simp [encJson], by decide, by decide, by decide⟩
  | obj kvs =>
    exact ⟨'\x7b', encMembers kvs ++ ['\x7d'], by simp [encJson], by decide, by decide,
      by decide⟩

theorem skipWs_encJson (v : Json) (r : List Char) :
    skipWs (encJson v ++ r) = encJson v ++ r := by
  obtain ⟨c, cs, he, hw, _, _⟩ := encJson_head v
  rw [he, List.cons_append, skipWs_not_ws c _ hw]

theorem skipWs_encList (x : Json) (xs : List Json) (r : List Char) :
    skipWs (encList (x :: xs) ++ r) = encList (x :: xs) ++ r := by
  cases xs with
  | nil =>
    rw [show encList [x] = encJson x from by simp [encList]]
    exact skipWs_encJson x r
  | cons y ys =>
    rw [show encList (x :: y :: ys) = encJson x ++ ',' :: ' ' :: encList (y :: ys) from by
      simp [encList]]
    rw [List.append_assoc]
    exact skipWs_encJson x _

theorem jsize_pos (v : Json) : 1 ≤ jsize v := by
  cases v <;> simp [jsize]

theorem parseVal_null (fuel : Nat) (r : List Char) :
    parseVal (fuel + 1) ('n' :: 'u' :: 'l' :: 'l' :: r) = some (.null, r) := by
  rw [parseVal.eq_def]
  simp [dropPrefixChars]

theorem parseVal_true (fuel : Nat) (r : List Char) :
    parseVal (fuel + 1) ('t' :: 'r' :: 'u' :: 'e' :: r) = some (.bool true, r) := by
  rw [parseVal.eq_def]
  simp [dropPrefixChars]

theorem parseVal_false (fuel : Nat) (r : List Char) :
    parseVal (fuel + 1) ('f' :: 'a' :: 'l' :: 's' :: 'e' :: r) = some (.bool false, r) := by
  rw [parseVal.eq_def]
  simp [dropPrefixChars]

theorem parseVal_str (fuel : Nat) (ts : List Char) :
    parseVal (fuel + 1) ('"' :: ts)
      = match parseStrBody ts with
        | some (s, r) => some (.str (String.mk s), r)
        | none => none := by
  rw [parseVal.eq_def]
  simp

theorem parseVal_arr_nil (fuel : Nat) (ts r : List Char) (h : skipWs ts = ']' :: r) :
    parseVal (fuel + 1) ('[' :: ts) = some (.arr [], r) := by
  rw [parseVal.eq_def]
  simp [h]

theorem parseVal_arr_cons (fuel : Nat) (ts : List Char) (d : Char) (r : List Char)
    (h : skipWs ts = d :: r) (hd : d ≠ ']') :
    parseVal (fuel + 1) ('[' :: ts)
      = match parseElems fuel (d :: r) with
        | some (xs, r2) => some (.arr xs, r2)
        | none => none := by
  rw [parseVal.eq_def]
  simp [h, hd]

theorem parseVal_obj_nil (fuel : Nat) (ts r : List Char) (h : skipWs ts = '\x7d' :: r) :
    parseVal (fuel + 1) ('\x7b' :: ts) = some (.obj [], r) := by
  rw [parseVal.eq_def]
  simp [h]

theorem parseVal_obj_cons (fuel : Nat) (ts : List Char) (d : Char) (r : List Char)
    (h : skipWs ts = d :: r) (hd : d ≠ '\x7d') :
    parseVal (fuel + 1) ('\x7b' :: ts)
      = match parseMembers fuel (d :: r) with
        | some (kvs, r2) => some (.obj kvs, r2)
        | none => none := by
  rw [parseVal.eq_def]
  simp [h, hd]

theorem parseVal_neg (fuel : Nat) (ts : List Char) (d : Char) (ds r : List Char)
    (h : spanDigits ts = (d :: ds, r)) :
    parseVal (fuel + 1) ('-' :: ts) = some (.num (-(charsToNat (d :: ds) : Int)), r) := by
  rw [parseVal.eq_def]
  simp [h]

theorem parseVal_digit (fuel : Nat) (c : Char) (ts : List Char) (h : c.isDigit = true) :
    parseVal (fuel + 1) (c :: ts)
      = some (.num (charsToNat (spanDigits (c :: ts)).1), (spanDigits (c :: ts)).2) := by
  have h1 : c ≠ 'n' := digit_ne c h 'n' (by decide)
  have h2 : c ≠ 't' := digit_ne c h 't' (by decide)
  have h3 : c ≠ 'f' := digit_ne c h 'f' (by decide)
  have h4 : c ≠ '"' := digit_ne c h '"' (by decide)
  have h5 : c ≠ '[' := digit_ne c h '[' (by decide)
  have h6 : c ≠ '\x7b' := digit_ne c h '\x7b' (by decide)
  have h7 : c ≠ '-' := digit_ne c h '-' (by decide)
  rw [parseVal.eq_def]
  simp [h1, h2, h3, h4, h5, h6, h7, h]

theorem parseVal_neg2 (fuel : Nat) (ts ds r : List Char)
    (h : spanDigits ts = (ds, r)) (hne : ds ≠ []) :
    parseVal (fuel + 1) ('-' :: ts) = some (.num (-(charsToNat ds : Int)), r) := by
  cases ds with
  | nil => exact absurd rfl hne
  | cons d ds => exact parseVal_neg fuel ts d ds r h

theorem encList_head (x : Json) (xs : List Json) :
    ∃ c cs, encList (x :: xs) = c :: cs ∧ isWsChar c = false ∧ c ≠ ']' ∧ c ≠ '\x7d' := by
  obtain ⟨c, cs0, he, hw, h1, h2⟩ := encJson_head x
  cases xs with
  | nil => exact ⟨c, cs0, by simp [encList, he], hw, h1, h2⟩
  | cons y ys =>
    exact ⟨c, cs0 ++ ',' :: ' ' :: encList (y :: ys), by simp [encList, he], hw, h1, h2⟩

theorem encMembers_head (k : String) (v : Json) (kvs : List (String × Json)) :
    ∃ cs, encMembers ((k, v) :: kvs) = '"' :: cs := by
  cases kvs with
  | nil => exact ⟨escString k.data ++ '"' :: ':' :: ' ' :: encJson v, by simp [encMembers]⟩
  | cons kv kvs2 =>
    exact ⟨(escString k.data ++ '"' :: ':' :: ' ' :: encJson v) ++ ',' :: ' ' :: encMembers (kv :: kvs2),
      by cases kv with | mk k2 v2 => simp [encMembers]⟩

theorem skipWs_encMembers (k : String) (v : Json) (kvs : List (String × Json)) (r : List Char) :
    skipWs (encMembers ((k, v) :: kvs) ++ r) = encMembers ((k, v) :: kvs) ++ r := by
  obtain ⟨cs, he⟩ := encMembers_head k v kvs
  rw [he, List.cons_append, skipWs_not_ws '"' _ (by decide)]

theorem skipWs_ws_cons (c : Char) (cs : List Char) (h : isWsChar c = true) :
    skipWs (c :: cs) = skipWs cs := by
  rw [skipWs.eq_def]
  simp [h]

theorem parseElems_succ (fuel : Nat) (cs : List Char) :
    parseElems (fuel + 1) cs
      = match parseVal fuel cs with
        | none => none
        | some (v, r) =>
          match skipWs r with
          | [] => none
          | d :: r2 =>
            if d = ',' then
              match parseElems fuel (skipWs r2) with
              | some (vs, r3) => some (v :: vs, r3)
              | none => none
            else if d = ']' then some ([v], r2)
            else none := by
  rw [parseElems.eq_def]

theorem parseMembers_succ (fuel : Nat) (cs : List Char) :
    parseMembers (fuel + 1) cs
      = match cs with
        | [] => none
        | c :: rest =>
          if c = '"' then
            match parseStrBody rest with
            | none => none
            | some (k, r) =>
              match skipWs r with
              | [] => none
              | d :: r2 =>
                if d = ':' then
                  match parseVal fuel (skipWs r2) with
                  | none => none
                  | some (v, r3) =>
                    match skipWs r3 with
                    | [] => none
                    | e :: r4 =>
                      if e = ',' then
                        match parseMembers fuel (skipWs r4) with
                        | some (kvs, r5) => some ((String.mk k, v) :: kvs, r5)
                        | none => none
                      else if e = '\x7d' then some ([(String.mk k, v)], r4)
                      else none
            else none
          else none := by
  rw [parseMembers.eq_def]

theorem parse_enc (fuel : Nat) :
    (∀ v rest, jsize v ≤ fuel →
      (rest = [] ∨ ∃ c cs, rest = c :: cs ∧ c.isDigit = false) →
      parseVal fuel (encJson v ++ rest) = some (v, rest))
    ∧ (∀ x xs rest, lsize (x :: xs) ≤ fuel →
      parseElems fuel (encList (x :: xs) ++ ']' :: rest) = some (x :: xs, rest))
    ∧ (∀ k v kvs rest, msize ((k, v) :: kvs) ≤ fuel →
      parseMembers fuel (encMembers ((k, v) :: kvs) ++ '\x7d' :: rest)
        = some ((k, v) :: kvs, rest)) := by
  induction fuel with
  | zero =>
    refine ⟨fun v rest hsz _ => absurd hsz (by have := jsize_pos v; omega),
      fun x xs rest hsz => absurd hsz (by simp [lsize]),
      fun k v kvs rest hsz => absurd hsz (by simp [msize])⟩
  | succ fuel ih =>
    obtain ⟨ih1, ih2, ih3⟩ := ih
    refine ⟨?_, ?_, ?_⟩
    · intro v rest hsz hrest
      cases v with
      | null =>
        rw [show encJson .null ++ rest = 'n' :: 'u' :: 'l' :: 'l' :: rest from by
          simp [encJson]]
        exact parseVal_null fuel rest
      | bool b =>
        cases b with
        | true =>
          rw [show encJson (.bool true) ++ rest = 't' :: 'r' :: 'u' :: 'e' :: rest from by
            simp [encJson]]
          exact parseVal_true fuel rest
        | false =>
          rw [show encJson (.bool false) ++ rest = 'f' :: 'a' :: 'l' :: 's' :: 'e' :: rest from by
            simp [encJson]]
          exact parseVal_false fuel rest
      | num n =>
        rw [show encJson (.num n) ++ rest = encInt n ++ rest from by simp [encJson]]
        have hspan : spanDigits (natToChars n.natAbs ++ rest) = (natToChars n.natAbs, rest) :=
          spanDigits_append _ _ (natToChars_all_digits _) hrest
        by_cases hneg : n < 0
        · rw [show encInt n = '-' :: natToChars n.natAbs from by simp [encInt, hneg]]
          rw [List.cons_append,
            parseVal_neg2 fuel _ _ _ hspan (natToChars_ne_nil _), charsToNat_natToChars]
          have : -((n.natAbs : Int)) = n := by omega
          rw [this]
        · cases hnc : natToChars n.natAbs with
          | nil => exact absurd hnc (natToChars_ne_nil _)
          | cons d ds =>
            have hd : d.isDigit = true :=
              natToChars_all_digits n.natAbs d (by rw [hnc]; exact List.mem_cons_self d ds)
            rw [show encInt n = natToChars n.natAbs from by simp [encInt, hneg], hnc,
              List.cons_append, parseVal_digit fuel d (ds ++ rest) hd]
            rw [show d :: (ds ++ rest) = natToChars n.natAbs ++ rest from by
              rw [hnc, List.cons_append]]
            rw [hspan, charsToNat_natToChars]
            have : ((n.natAbs : Int)) = n := by omega
            simp [this]
      | str s =>
        obtain ⟨sd⟩ := s
        rw [show encJson (.str (String.mk sd)) ++ rest
            = '"' :: (escString sd ++ '"' :: rest) from by simp [encJson]]
        rw [parseVal_str, parseStrBody_esc]
      | arr xs =>
        cases xs with
        | nil =>
          rw [show encJson (.arr []) ++ rest = '[' :: ']' :: rest from by
            simp [encJson, encList]]
          exact parseVal_arr_nil fuel _ rest (skipWs_not_ws ']' rest (by decide))
        | cons x xs =>
          have hsz2 : lsize (x :: xs) ≤ fuel := by
            simp only [jsize] at hsz
            omega
          rw [show encJson (.arr (x :: xs)) ++ rest
              = '[' :: (encList (x :: xs) ++ ']' :: rest) from by
            simp [encJson]]
          obtain ⟨d, dcs, hdl, hwd, hdne, _⟩ := encList_head x xs
          rw [parseVal_arr_cons fuel _ d (dcs ++ ']' :: rest)
            (by rw [hdl, List.cons_append]; exact skipWs_not_ws d _ hwd) hdne]
          rw [show d :: (dcs ++ ']' :: rest) = encList (x :: xs) ++ ']' :: rest from by
            rw [hdl, List.cons_append]]
          rw [ih2 x xs rest hsz2]
      | obj kvs =>
        cases kvs with
        | nil =>
          rw [show encJson (.obj []) ++ rest = '\x7b' :: '\x7d' :: rest from by
            simp [encJson, encMembers]]
          exact parseVal_obj_nil fuel _ rest (skipWs_not_ws '\x7d' rest (by decide))
        | cons kv kvs =>
          obtain ⟨k, v⟩ := kv
          have hsz2 : msize ((k, v) :: kvs) ≤ fuel := by
            simp only [jsize] at hsz
            omega
          rw [show encJson (.obj ((k, v) :: kvs)) ++ rest
              = '\x7b' :: (encMembers ((k, v) :: kvs) ++ '\x7d' :: rest) from by
            simp [encJson]]
          obtain ⟨mcs, hml⟩ := encMembers_head k v kvs
          rw [parseVal_obj_cons fuel _ '"' (mcs ++ '\x7d' :: rest)
            (by rw [hml, List.cons_append]; exact skipWs_not_ws '"' _ (by decide)) (by decide)]
          rw [show '"' :: (mcs ++ '\x7d' :: rest) = encMembers ((k, v) :: kvs) ++ '\x7d' :: rest from by
            rw [hml, List.cons_append]]
          rw [ih3 k v kvs rest hsz2]
    · intro x xs rest hsz
      rw [parseElems_succ]
      cases xs with
      | nil =>
        have hszx : jsize x ≤ fuel := by simp only [lsize] at hsz; omega
        rw [show encList [x] ++ ']' :: rest = encJson x ++ ']' :: rest from by simp [encList]]
        rw [ih1 x (']' :: rest) hszx (Or.inr ⟨']', rest, rfl, by decide⟩)]
        simp [skipWs_not_ws ']' rest (by decide)]
      | cons x2 xs2 =>
        have hszx : jsize x ≤ fuel := by simp only [lsize] at hsz; omega
        have hszt : lsize (x2 :: xs2) ≤ fuel := by
          have := jsize_pos x
          simp only [lsize] at hsz ⊢
          omega
        rw [show encList (x :: x2 :: xs2) ++ ']' :: rest
            = encJson x ++ (',' :: ' ' :: (encList (x2 :: xs2) ++ ']' :: rest)) from by
          simp [encList]]
        rw [ih1 x _ hszx (Or.inr ⟨',', _, rfl, by decide⟩)]
        have e1 : skipWs (',' :: ' ' :: (encList (x2 :: xs2) ++ ']' :: rest))
            = ',' :: ' ' :: (encList (x2 :: xs2) ++ ']' :: rest) :=
          skipWs_not_ws ',' _ (by decide)
        have e2 : skipWs (' ' :: (encList (x2 :: xs2) ++ ']' :: rest))
            = encList (x2 :: xs2) ++ ']' :: rest := by
          rw [skipWs_ws_cons ' ' _ (by decide)]
          exact skipWs_encList x2 xs2 _
        simp [e1, e2, ih2 x2 xs2 rest hszt]
    · intro k v kvs rest hsz
      obtain ⟨kd⟩ := k
      rw [parseMembers_succ]
      cases kvs with
      | nil =>
        have hszv : jsize v ≤ fuel := by simp only [msize] at hsz; omega
        rw [show encMembers [(String.mk kd, v)] ++ '\x7d' :: rest
            = '"' :: (escString kd ++ '"' :: (':' :: ' ' :: (encJson v ++ '\x7d' :: rest))) from by
          simp [encMembers]]
        have e1 : parseStrBody (escString kd ++ '"' :: (':' :: ' ' :: (encJson v ++ '\x7d' :: rest)))
            = some (kd, ':' :: ' ' :: (encJson v ++ '\x7d' :: rest)) := parseStrBody_esc kd _
        have e2 : skipWs (':' :: ' ' :: (encJson v ++ '\x7d' :: rest))
            = ':' :: ' ' :: (encJson v ++ '\x7d' :: rest) := skipWs_not_ws ':' _ (by decide)
        have e3 : skipWs (' ' :: (encJson v ++ '\x7d' :: rest)) = encJson v ++ '\x7d' :: rest := by
          rw [skipWs_ws_cons ' ' _ (by decide)]
          exact skipWs_encJson v _
        have e4 := ih1 v ('\x7d' :: rest) hszv (Or.inr ⟨'\x7d', rest, rfl, by decide⟩)
        have e5 : skipWs ('\x7d' :: rest) = '\x7d' :: rest := skipWs_not_ws '\x7d' rest (by decide)
        simp [e1, e2, e3, e4, e5]
      | cons kv2 kvs2 =>
        obtain ⟨k2, v2⟩ := kv2
        have hszv : jsize v ≤ fuel := by simp only [msize] at hsz; omega
        have hszt : msize ((k2, v2) :: kvs2) ≤ fuel := by
          have := jsize_pos v
          simp only [msize] at hsz ⊢
          omega
        rw [show encMembers ((String.mk kd, v) :: (k2, v2) :: kvs2) ++ '\x7d' :: rest
            = '"' :: (escString kd ++ '"' :: (':' :: ' ' :: (encJson v
                ++ ',' :: ' ' :: (encMembers ((k2, v2) :: kvs2) ++ '\x7d' :: rest)))) from by
          simp [encMembers]]
        have e1 : parseStrBody (escString kd ++ '"' :: (':' :: ' ' :: (encJson v
              ++ ',' :: ' ' :: (encMembers ((k2, v2) :: kvs2) ++ '\x7d' :: rest))))
            = some (kd, ':' :: ' ' :: (encJson v
              ++ ',' :: ' ' :: (encMembers ((k2, v2) :: kvs2) ++ '\x7d' :: rest))) :=
          parseStrBody_esc kd _
        have e2 : skipWs (':' :: ' ' :: (encJson v
              ++ ',' :: ' ' :: (encMembers ((k2, v2) :: kvs2) ++ '\x7d' :: rest)))
            = ':' :: ' ' :: (encJson v
              ++ ',' :: ' ' :: (encMembers ((k2, v2) :: kvs2) ++ '\x7d' :: rest)) :=
          skipWs_not_ws ':' _ (by decide)
        have e3 : skipWs (' ' :: (encJson v
              ++ ',' :: ' ' :: (encMembers ((k2, v2) :: kvs2) ++ '\x7d' :: rest)))
            = encJson v ++ ',' :: ' ' :: (encMembers ((k2, v2) :: kvs2) ++ '\x7d' :: rest) := by
          rw [skipWs_ws_cons ' ' _ (by decide)]
          exact skipWs_encJson v _
        have e4 := ih1 v _ hszv (Or.inr ⟨',', ' ' :: (encMembers ((k2, v2) :: kvs2) ++ '\x7d' :: rest), rfl, by decide⟩)
        have e5 : skipWs (',' :: ' ' :: (encMembers ((k2, v2) :: kvs2) ++ '\x7d' :: rest))
            = ',' :: ' ' :: (encMembers ((k2, v2) :: kvs2) ++ '\x7d' :: rest) :=
          skipWs_not_ws ',' _ (by decide)
        have e6 : skipWs (' ' :: (encMembers ((k2, v2) :: kvs2) ++ '\x7d' :: rest))
            = encMembers ((k2, v2) :: kvs2) ++ '\x7d' :: rest := by
          rw [skipWs_ws_cons ' ' _ (by decide)]
          exact skipWs_encMembers k2 v2 kvs2 _
        simp [e1, e2, e3, e4, e5, e6, ih3 k2 v2 kvs2 rest hszt]

theorem jsize_mem_lsize (xs : List Json) (x : Json) (h : x ∈ xs) : jsize x ≤ lsize xs := by
  induction xs with
  | nil => cases h
  | cons y ys ih =>
    rcases List.mem_cons.mp h with rfl | h2
    · simp [lsize]
      omega
    · have := ih h2
      simp [lsize]
      omega

theorem jsize_mem_msize (kvs : List (String × Json)) (k : String) (v : Json)
    (h : (k, v) ∈ kvs) : jsize v ≤ msize kvs := by
  induction kvs with
  | nil => cases h
  | cons kv kvs2 ih =>
    obtain ⟨k2, v2⟩ := kv
    rcases List.mem_cons.mp h with heq | h2
    · obtain ⟨rfl, rfl⟩ := Prod.mk.injEq .. ▸ heq
      simp [msize]
      omega
    · have := ih h2
      simp [msize]
      omega

theorem lsize_le_encList (xs : List Json)
    (h : ∀ x ∈ xs, jsize x ≤ (encJson x).length) :
    lsize xs ≤ (encList xs).length + 1 := by
  induction xs with
  | nil => simp [lsize]
  | cons x xs ih =>
    have hx : jsize x ≤ (encJson x).length := h x (by simp)
    have ihx := ih (fun y hy => h y (by simp [hy]))
    cases xs with
    | nil =>
      simp [lsize, encList, lsize] at *
      omega
    | cons x2 xs2 =>
      rw [show encList (x :: x2 :: xs2) = encJson x ++ ',' :: ' ' :: encList (x2 :: xs2) from by
        simp [encList]]
      simp only [lsize, List.length_append, List.length_cons] at *
      omega

theorem msize_le_encMembers (kvs : List (String × Json))
    (h : ∀ p ∈ kvs, jsize p.2 ≤ (encJson p.2).length) :
    msize kvs ≤ (encMembers kvs).length + 1 := by
  induction kvs with
  | nil => simp [msize]
  | cons kv kvs2 ih =>
    obtain ⟨k, v⟩ := kv
    have hv : jsize v ≤ (encJson v).length := h (k, v) (by simp)
    have ihv := ih (fun p hp => h p (by simp [hp]))
    cases kvs2 with
    | nil =>
      simp [msize, encMembers, msize] at *
      omega
    | cons kv2 kvs3 =>
      rw [show encMembers ((k, v) :: kv2 :: kvs3)
          = ('"' :: escString k.data ++ '"' :: ':' :: ' ' :: encJson v)
            ++ ',' :: ' ' :: encMembers (kv2 :: kvs3) from by
        cases kv2 with | mk k2 v2 => simp [encMembers]]
      simp only [msize, List.length_append, List.length_cons] at *
      omega

theorem encInt_length_pos (i : Int) : 1 ≤ (encInt i).length := by
  obtain ⟨c, cs, he, _⟩ := encInt_head i
  rw [he]
  simp

theorem jsize_le_enc_aux : ∀ n v, jsize v ≤ n → jsize v ≤ (encJson v).length := by
  intro n
  induction n using Nat.strong_induction_on with
  | _ n ih =>
    intro v hv
    cases v with
    | null => simp [encJson, jsize]
    | bool b => cases b <;> simp [encJson, jsize]
    | num m =>
      rw [show encJson (.num m) = encInt m from by simp [encJson]]
      have := encInt_length_pos m
      simp [jsize]
      omega
    | str s =>
      rw [show encJson (.str s) = '"' :: escString s.data ++ ['"'] from by simp [encJson]]
      simp [jsize]
    | arr xs =>
      cases n with
      | zero => have := jsize_pos (.arr xs); omega
      | succ n =>
        have hsz : lsize xs ≤ n := by simp only [jsize] at hv; omega
        have hx : ∀ x ∈ xs, jsize x ≤ (encJson x).length := by
          intro x hmem
          exact ih n (by omega) x (le_trans (jsize_mem_lsize xs x hmem) hsz)
        have hb := lsize_le_encList xs hx
        rw [show encJson (.arr xs) = '[' :: encList xs ++ [']'] from by simp [encJson]]
        simp only [jsize, List.length_cons, List.length_append, List.length_singleton]
        omega
    | obj kvs =>
      cases n with
      | zero => have := jsize_pos (.obj kvs); omega
      | succ n =>
        have hsz : msize kvs ≤ n := by simp only [jsize] at hv; omega
        have hx : ∀ p ∈ kvs, jsize p.2 ≤ (encJson p.2).length := by
          intro p hmem
          exact ih n (by omega) p.2
            (le_trans (jsize_mem_msize kvs p.1 p.2 (by simpa using hmem)) hsz)
        have hb := msize_le_encMembers kvs hx
        rw [show encJson (.obj kvs) = '\x7b' :: encMembers kvs ++ ['\x7d'] from by simp [encJson]]
        simp only [jsize, List.length_cons, List.length_append, List.length_singleton]
        omega

theorem jsize_le_enc (v : Json) : jsize v ≤ (encJson v).length :=
  jsize_le_enc_aux (jsize v) v le_rfl

theorem json_loads_dumps (v : Json) : json_loads (json_dumps v) = some v := by
  unfold json_loads json_dumps
  rw [show (String.mk (encJson v)).data = encJson v from rfl]
  have h := (parse_enc ((encJson v).length + 1)).1 v []
    (by have := jsize_le_enc v; omega) (Or.inl rfl)
  rw [List.append_nil] at h
  rw [h]
  simp

theorem json_dumps_ne_empty (v : Json) : json_dumps v ≠ "" := by
  obtain ⟨c, cs, he, _, _, _⟩ := encJson_head v
  unfold json_dumps
  rw [he]
  intro h
  have := congrArg String.data h
  simp at this

/-! ### Entity layer (src/backend/models.py) -/

/-- Wall-clock timestamps: abstract values carrying their ISO rendering. -/
structure DateTime where
  iso : String
deriving DecidableEq

/-- datetime.isoformat(). -/
def DateTime.isoformat (d : DateTime) : String := d.iso

/-- json.JSONDecodeError raised by json.loads on malformed input. -/
inductive JSONDecodeError where
  | mk : JSONDecodeError
deriving DecidableEq

/-- Python values appearing in to_dict dictionaries.  Python floats are
modelled as rationals; decoded JSON collections are embedded whole. -/
inductive PyVal where
  | none : PyVal
  | bool (b : Bool) : PyVal
  | int (n : Int) : PyVal
  | rat (q : ℚ) : PyVal
  | str (s : String) : PyVal
  | json (v : Json) : PyVal
  | dict (fields : List (String × PyVal)) : PyVal

/-- Projection of an optional string column ('x' or None). -/
def optStr : Option String → PyVal
  | Option.none => .none
  | Option.some s => .str s

/-- Projection of an optional integer column. -/
def optInt : Option Int → PyVal
  | Option.none => .none
  | Option.some n => .int n

/-- Projection of an optional boolean column. -/
def optBool : Option Bool → PyVal
  | Option.none => .none
  | Option.some b => .bool b

/-- Projection modelling `x.isoformat() if x else None`. -/
def isoOrNone : Option DateTime → PyVal
  | Option.none => .none
  | Option.some d => .str d.isoformat

/-- Key lookup in a to_dict dictionary (first match). -/
def dictGet (d : List (String × PyVal)) (k : String) : Option PyVal :=
  match d with
  | [] => Option.none
  | (k2, v) :: rest => if k2 = k then Option.some v else dictGet rest k

/-- Key membership in a to_dict dictionary. -/
def hasKey (d : List (String × PyVal)) (k : String) : Bool :=
  (dictGet d k).isSome

/-- users table (class User). -/
structure User where
  id : Int
  username : String
  email : String
  password_hash : String
  first_name : Option String
  last_name : Option String
  bio : Option String
  profile_picture : Option String
  dietary_preferences : Option String
  cooking_level : Option String
  is_active : Option Bool
  is_verified : Option Bool
  created_at : Option DateTime
  updated_at : Option DateTime
  last_login : Option DateTime
deriving DecidableEq

/-- recipes table (class Recipe). -/
structure Recipe where
  id : Int
  title : String
  description : Option String
  ingredients : Option String
  instructions : String
  prep_time : Option Int
  cook_time : Option Int
  total_time : Option Int
  servings : Option Int
  difficulty : Option String
  category : Option String
  tags : Option String
  cuisine_type : Option String
  image_url : Option String
  video_url : Option String
  calories_per_serving : Option Int
  nutritional_info : Option String
  is_public : Option Bool
  is_swappable : Option Bool
  rating_sum : Int
  rating_count : Int
  author_id : Int
  created_at : Option DateTime
  updated_at : Option DateTime
deriving DecidableEq

/-- reviews table (class Review). -/
structure Review where
  id : Int
  rating : Int
  comment : Option String
  helpful_count : Option Int
  recipe_id : Int
  reviewer_id : Int
  created_at : Option DateTime
  updated_at : Option DateTime
deriving DecidableEq

/-- recipe_swaps table (class RecipeSwap). -/
structure RecipeSwap where
  id : Int
  requester_id : Int
  owner_id : Int
  recipe_id : Int
  message : Option String
  offered_recipe_ids : Option String
  status : String
  response_message : Option String
  created_at : Option DateTime
  updated_at : Option DateTime
  completed_at : Option DateTime
deriving DecidableEq

/-- Python round(x, ndigits) rounds half to even; exact on rationals. -/
def roundHalfEven (q : ℚ) : Int :=
  let n := ⌊q⌋
  let frac := q - (n : ℚ)
  if frac < 1 / 2 then n
  else if 1 / 2 < frac then n + 1
  else if n % 2 = 0 then n else n + 1

/-- round(x, 1): round to one decimal place, half to even. -/
def pyRound1 (q : ℚ) : ℚ := (roundHalfEven (q * 10) : ℚ) / 10

/-- Recipe.average_rating: 0 when rating_count == 0, otherwise
round(rating_sum / rating_count, 1). -/
def Recipe.average_rating (r : Recipe) : ℚ :=
  if r.rating_count = 0 then 0
  else pyRound1 ((r.rating_sum : ℚ) / (r.rating_count : ℚ))

/-- User.get_dietary_preferences: json.loads of the column when truthy,
else the empty list; decode failure raises. -/
def User.get_dietary_preferences (u : User) : Except JSONDecodeError Json :=
  match u.dietary_preferences with
  | Option.some s =>
    if s ≠ "" then
      match json_loads s with
      | Option.some v => .ok v
      | Option.none => .error .mk
    else .ok (.arr [])
  | Option.none => .ok (.arr [])

/-- User.set_dietary_preferences: store json.dumps of the list. -/
def User.set_dietary_preferences (u : User) (preferences : List Json) : User :=
  { u with dietary_preferences := Option.some (json_dumps (.arr preferences)) }

/-- Recipe.get_ingredients. -/
def Recipe.get_ingredients (r : Recipe) : Except JSONDecodeError Json :=
  match r.ingredients with
  | Option.some s =>
    if s ≠ "" then
      match json_loads s with
      | Option.some v => .ok v
      | Option.none => .error .mk
    else .ok (.arr [])
  | Option.none => .ok (.arr [])

/-- Recipe.set_ingredients. -/
def Recipe.set_ingredients (r : Recipe) (ingredients : List Json) : Recipe :=
  { r with ingredients := Option.some (json_dumps (.arr ingredients)) }

/-- Recipe.get_tags. -/
def Recipe.get_tags (r : Recipe) : Except JSONDecodeError Json :=
  match r.tags with
  | Option.some s =>
    if s ≠ "" then
      match json_loads s with
      | Option.some v => .ok v
      | Option.none => .error .mk
    else .ok (.arr [])
  | Option.none => .ok (.arr [])

/-- Recipe.set_tags. -/
def Recipe.set_tags (r : Recipe) (tags : List Json) : Recipe :=
  { r with tags := Option.some (json_dumps (.arr tags)) }

/-- Recipe.get_nutritional_info: empty mapping when the column is unset. -/
def Recipe.get_nutritional_info (r : Recipe) : Except JSONDecodeError Json :=
  match r.nutritional_info with
  | Option.some s =>
    if s ≠ "" then
      match json_loads s with
      | Option.some v => .ok v
      | Option.none => .error .mk
    else .ok (.obj [])
  | Option.none => .ok (.obj [])

/-- Recipe.set_nutritional_info. -/
def Recipe.set_nutritional_info (r : Recipe) (nutrition : List (String × Json)) : Recipe :=
  { r with nutritional_info := Option.some (json_dumps (.obj nutrition)) }

/-- RecipeSwap.get_offered_recipe_ids. -/
def RecipeSwap.get_offered_recipe_ids (sw : RecipeSwap) : Except JSONDecodeError Json :=
  match sw.offered_recipe_ids with
  | Option.some s =>
    if s ≠ "" then
      match json_loads s with
      | Option.some v => .ok v
      | Option.none => .error .mk
    else .ok (.arr [])
  | Option.none => .ok (.arr [])

/-- RecipeSwap.set_offered_recipe_ids. -/
def RecipeSwap.set_offered_recipe_ids (sw : RecipeSwap) (recipe_ids : List Json) : RecipeSwap :=
  { sw with offered_recipe_ids := Option.some (json_dumps (.arr recipe_ids)) }

/-- The relational state: one list per table. -/
structure DBState where
  users : List User
  recipes : List Recipe
  reviews : List Review
  swaps : List RecipeSwap
deriving DecidableEq

/-- The User.recipes relationship (Recipe.author_id foreign key). -/
def userRecipes (s : DBState) (uid : Int) : List Recipe :=
  s.recipes.filter (fun r => decide (r.author_id = uid))

/-- Resolve a users.id foreign key (ORM relationship access). -/
def findUser (s : DBState) (uid : Int) : Option User :=
  s.users.find? (fun u => decide (u.id = uid))

/-- Resolve a recipes.id foreign key (ORM relationship access). -/
def findRecipe (s : DBState) (rid : Int) : Option Recipe :=
  s.recipes.find? (fun r => decide (r.id = rid))

/-- User.to_dict: public view; email only when include_email. -/
def User.to_dict (s : DBState) (u : User) (include_email : Bool) :
    Except JSONDecodeError (List (String × PyVal)) :=
  match u.get_dietary_preferences with
  | .error e => .error e
  | .ok prefs =>
    let data := [("id", PyVal.int u.id),
      ("username", PyVal.str u.username),
      ("first_name", optStr u.first_name),
      ("last_name", optStr u.last_name),
      ("bio", optStr u.bio),
      ("profile_picture", optStr u.profile_picture),
      ("dietary_preferences", PyVal.json prefs),
      ("cooking_level", optStr u.cooking_level),
      ("created_at", isoOrNone u.created_at),
      ("recipe_count", PyVal.int (userRecipes s u.id).length)]
    if include_email then .ok (data ++ [("email", PyVal.str u.email)]) else .ok data

/-- Recipe.to_dict: full recipe view, optionally embedding the author's
view (author embedded with include_email left at its default False). -/
def Recipe.to_dict (s : DBState) (r : Recipe) (include_author : Bool) :
    Except JSONDecodeError (List (String × PyVal)) :=
  match r.get_ingredients with
  | .error e => .error e
  | .ok ingredients =>
  match r.get_tags with
  | .error e => .error e
  | .ok tags =>
  match r.get_nutritional_info with
  | .error e => .error e
  | .ok nutrition =>
  let data := [("id", PyVal.int r.id),
    ("title", PyVal.str r.title),
    ("description", optStr r.description),
    ("ingredients", PyVal.json ingredients),
    ("instructions", PyVal.str r.instructions),
    ("prep_time", optInt r.prep_time),
    ("cook_time", optInt r.cook_time),
    ("total_time", optInt r.total_time),
    ("servings", optInt r.servings),
    ("difficulty", optStr r.difficulty),
    ("category", optStr r.category),
    ("tags", PyVal.json tags),
    ("cuisine_type", optStr r.cuisine_type),
    ("image_url", optStr r.image_url),
    ("video_url", optStr r.video_url),
    ("calories_per_serving", optInt r.calories_per_serving),
    ("nutritional_info", PyVal.json nutrition),
    ("is_public", optBool r.is_public),
    ("is_swappable", optBool r.is_swappable),
    ("average_rating", PyVal.rat r.average_rating),
    ("rating_count", PyVal.int r.rating_count),
    ("created_at", isoOrNone r.created_at),
    ("updated_at", isoOrNone r.updated_at)]
  if include_author then
    match findUser s r.author_id with
    | Option.some u =>
      match User.to_dict s u false with
      | .error e => .error e
      | .ok ud => .ok (data ++ [("author", PyVal.dict ud)])
    | Option.none => .ok data
  else .ok data

/-- Review.to_dict: review view, optionally embedding the reviewer. -/
def Review.to_dict (s : DBState) (rv : Review) (include_reviewer : Bool) :
    Except JSONDecodeError (List (String × PyVal)) :=
  let data := [("id", PyVal.int rv.id),
    ("rating", PyVal.int rv.rating),
    ("comment", optStr rv.comment),
    ("helpful_count", optInt rv.helpful_count),
    ("created_at", isoOrNone rv.created_at),
    ("updated_at", isoOrNone rv.updated_at)]
  if include_reviewer then
    match findUser s rv.reviewer_id with
    | Option.some u =>
      match User.to_dict s u false with
      | .error e => .error e
      | .ok ud => .ok (data ++ [("reviewer", PyVal.dict ud)])
    | Option.none => .ok data
  else .ok data

/-- RecipeSwap.to_dict: swap view, optionally embedding requester, owner
and the requested recipe (recipe embedded without its author). -/
def RecipeSwap.to_dict (s : DBState) (sw : RecipeSwap)
    (include_users include_recipe : Bool) :
    Except JSONDecodeError (List (String × PyVal)) :=
  match sw.get_offered_recipe_ids with
  | .error e => .error e
  | .ok offered =>
  let data := [("id", PyVal.int sw.id),
    ("message", optStr sw.message),
    ("offered_recipe_ids", PyVal.json offered),
    ("status", PyVal.str sw.status),
    ("response_message", optStr sw.response_message),
    ("created_at", isoOrNone sw.created_at),
    ("updated_at", isoOrNone sw.updated_at),
    ("completed_at", isoOrNone sw.completed_at)]
  let withUsers : Except JSONDecodeError (List (String × PyVal)) :=
    if include_users then
      let withReq : Except JSONDecodeError (List (String × PyVal)) :=
        match findUser s sw.requester_id with
        | Option.some u =>
          match User.to_dict s u false with
          | .error e => .error e
          | .ok ud => .ok (data ++ [("requester", PyVal.dict ud)])
        | Option.none => .ok data
      match withReq with
      | .error e => .error e
      | .ok dataA =>
        match findUser s sw.owner_id with
        | Option.some u =>
          match User.to_dict s u false with
          | .error e => .error e
          | .ok ud => .ok (dataA ++ [("owner", PyVal.dict ud)])
        | Option.none => .ok dataA
    else .ok data
  match withUsers with
  | .error e => .error e
  | .ok data2 =>
    if include_recipe then
      match findRecipe s sw.recipe_id with
      | Option.some r =>
        match Recipe.to_dict s r false with
        | .error e => .error e
        | .ok rd => .ok (data2 ++ [("recipe", PyVal.dict rd)])
      | Option.none => .ok data2
    else .ok data2

/-! ### Persistence operations and the swap lifecycle -/

/-- UniquenessViolation surfaced by the store when a declared unique
constraint is violated. -/
inductive UniquenessViolation where
  | mk : UniquenessViolation
deriving DecidableEq

/-- Insert a review.  The store enforces the declared
UniqueConstraint('recipe_id', 'reviewer_id') from Review.__table_args__:
a second review for the same (recipe, reviewer) pair is rejected. -/
def insertReview (s : DBState) (rv : Review) : Except UniquenessViolation DBState :=
  if s.reviews.any (fun r0 =>
      decide (r0.recipe_id = rv.recipe_id) && decide (r0.reviewer_id = rv.reviewer_id)) then
    .error .mk
  else
    .ok { s with reviews := s.reviews ++ [rv] }

/-- Delete a user, applying the cascades declared on the relationships:
User.recipes and User.reviews carry cascade='all, delete-orphan', and each
deleted recipe cascades to its reviews and swaps (Recipe.reviews,
Recipe.swaps); sent_swaps and received_swaps declare no delete cascade, so
swaps survive when their requested recipe survives. -/
def deleteUser (s : DBState) (uid : Int) : DBState :=
  let deadRecipe : Int → Bool := fun rid =>
    s.recipes.any (fun r => decide (r.author_id = uid) && decide (r.id = rid))
  { users := s.users.filter (fun u => !decide (u.id = uid)),
    recipes := s.recipes.filter (fun r => !decide (r.author_id = uid)),
    reviews := s.reviews.filter (fun rv =>
      !decide (rv.reviewer_id = uid) && !deadRecipe rv.recipe_id),
    swaps := s.swaps.filter (fun sw => !deadRecipe sw.recipe_id) }

/-- Modelled from the spec: the swap status lifecycle of section 4.4.  The
source stores status as an unconstrained string column with no transition
logic; the spec reconstructs the intended closed state machine. -/
inductive SwapStatus where
  | pending : SwapStatus
  | accepted : SwapStatus
  | declined : SwapStatus
  | completed : SwapStatus
deriving DecidableEq

/-- Modelled from the spec: rendering of a lifecycle state into the
status column. -/
def statusToString : SwapStatus → String
  | .pending => "pending"
  | .accepted => "accepted"
  | .declined => "declined"
  | .completed => "completed"

/-- Modelled from the spec: reading of the status column into the closed
enum; free text outside the four states has no lifecycle meaning. -/
def statusOfString (s : String) : Option SwapStatus :=
  if s = "pending" then Option.some .pending
  else if s = "accepted" then Option.some .accepted
  else if s = "declined" then Option.some .declined
  else if s = "completed" then Option.some .completed
  else Option.none

/-- InvalidTransitionError raised on an illegal swap status change. -/
inductive InvalidTransitionError where
  | mk : InvalidTransitionError
deriving DecidableEq

/-- Modelled from the spec: the legal transition relation —
pending→accepted, pending→declined, accepted→completed only. -/
def validTransition : SwapStatus → SwapStatus → Bool
  | .pending, .accepted => true
  | .pending, .declined => true
  | .accepted, .completed => true
  | _, _ => false

/-- Modelled from the spec: the transition-validation function of section
4.4.  An illegal change fails with InvalidTransitionError; completed_at is
set exactly when transitioning into completed, never otherwise. -/
def changeStatus (sw : RecipeSwap) (new : SwapStatus) (now : DateTime) :
    Except InvalidTransitionError RecipeSwap :=
  match statusOfString sw.status with
  | Option.none => .error .mk
  | Option.some cur =>
    if validTransition cur new then
      .ok { sw with
        status := statusToString new,
        completed_at := if new = .completed then Option.some now else sw.completed_at,
        updated_at := Option.some now }
    else .error .mk

/-! ### Sample data used by witnesses -/

/-- A concrete user. -/
def sampleUser : User :=
  { id := 1, username := "alice", email := "alice@example.com", password_hash := "h",
    first_name := Option.none, last_name := Option.none, bio := Option.none,
    profile_picture := Option.none, dietary_preferences := Option.none,
    cooking_level := Option.some "beginner", is_active := Option.some true,
    is_verified := Option.some false, created_at := Option.none,
    updated_at := Option.none, last_login := Option.none }

/-- A second concrete user. -/
def sampleUser2 : User :=
  { sampleUser with id := 2, username := "bob", email := "bob@example.com" }

/-- A concrete recipe authored by sampleUser. -/
def sampleRecipe : Recipe :=
  { id := 10, title := "Tofu Scramble", description := Option.none,
    ingredients := Option.none, instructions := "mix",
    prep_time := Option.none, cook_time := Option.none, total_time := Option.none,
    servings := Option.some 1, difficulty := Option.some "easy",
    category := Option.none, tags := Option.none, cuisine_type := Option.none,
    image_url := Option.none, video_url := Option.none,
    calories_per_serving := Option.none, nutritional_info := Option.none,
    is_public := Option.some true, is_swappable := Option.some true,
    rating_sum := 5, rating_count := 2, author_id := 1,
    created_at := Option.none, updated_at := Option.none }

/-- A second concrete recipe authored by sampleUser2. -/
def sampleRecipe2 : Recipe :=
  { sampleRecipe with id := 20, title := "Curry", author_id := 2 }

/-- A concrete review of sampleRecipe by sampleUser2. -/
def sampleReview : Review :=
  { id := 100, rating := 4, comment := Option.none, helpful_count := Option.some 0,
    recipe_id := 10, reviewer_id := 2, created_at := Option.none,
    updated_at := Option.none }

/-- A pending swap requesting sampleRecipe. -/
def sampleSwap : RecipeSwap :=
  { id := 1000, requester_id := 2, owner_id := 1, recipe_id := 10,
    message := Option.none, offered_recipe_ids := Option.none,
    status := "pending", response_message := Option.none,
    created_at := Option.none, updated_at := Option.none,
    completed_at := Option.none }

/-- A pending swap in the other direction, requesting sampleRecipe2. -/
def sampleSwap2 : RecipeSwap :=
  { sampleSwap with id := 1001, requester_id := 1, owner_id := 2, recipe_id := 20 }

/-- A concrete database state tying the samples together. -/
def sampleState : DBState :=
  { users := [sampleUser, sampleUser2], recipes := [sampleRecipe, sampleRecipe2],
    reviews := [sampleReview], swaps := [sampleSwap, sampleSwap2] }

/-! ### Claim theorems -/

/-- Claim C1: for every Recipe, average_rating is 0 when rating_count is 0 and
otherwise round(rating_sum / rating_count, 1); in the latter case the
result is an integer number of tenths. -/
theorem average_rating_spec (r : Recipe) :
    (r.rating_count = 0 → r.average_rating = 0)
    ∧ (r.rating_count ≠ 0 →
        r.average_rating = pyRound1 ((r.rating_sum : ℚ) / (r.rating_count : ℚ))
        ∧ ∃ z : Int, r.average_rating = (z : ℚ) / 10) := by
  refine ⟨fun h => by simp [Recipe.average_rating, h], fun h => ⟨?_, ?_⟩⟩
  · simp [Recipe.average_rating, h]
  · refine ⟨roundHalfEven (((r.rating_sum : ℚ) / (r.rating_count : ℚ)) * 10), ?_⟩
    simp [Recipe.average_rating, h, pyRound1]

/-- Claim C1 witness: the theorem applied to a concrete recipe with
rating_sum = 5, rating_count = 2. -/
theorem average_rating_spec_witness :
    sampleRecipe.rating_count ≠ 0
    ∧ sampleRecipe.average_rating
        = pyRound1 ((sampleRecipe.rating_sum : ℚ) / (sampleRecipe.rating_count : ℚ)) :=
  ⟨by decide, ((average_rating_spec sampleRecipe).2 (by decide)).1⟩

/-- Claim C2: every encoded collection field reads back as empty when unset and
round-trips set followed by get without loss. -/
theorem encoded_fields_roundtrip (u : User) (r : Recipe) (sw : RecipeSwap)
    (v : List Json) (m : List (String × Json)) :
    ({ u with dietary_preferences := Option.none } : User).get_dietary_preferences
        = .ok (.arr [])
    ∧ ({ u with dietary_preferences := Option.some "" } : User).get_dietary_preferences
        = .ok (.arr [])
    ∧ (u.set_dietary_preferences v).get_dietary_preferences = .ok (.arr v)
    ∧ ({ r with ingredients := Option.none } : Recipe).get_ingredients = .ok (.arr [])
    ∧ ({ r with ingredients := Option.some "" } : Recipe).get_ingredients = .ok (.arr [])
    ∧ (r.set_ingredients v).get_ingredients = .ok (.arr v)
    ∧ ({ r with tags := Option.none } : Recipe).get_tags = .ok (.arr [])
    ∧ ({ r with tags := Option.some "" } : Recipe).get_tags = .ok (.arr [])
    ∧ (r.set_tags v).get_tags = .ok (.arr v)
    ∧ ({ r with nutritional_info := Option.none } : Recipe).get_nutritional_info
        = .ok (.obj [])
    ∧ ({ r with nutritional_info := Option.some "" } : Recipe).get_nutritional_info
        = .ok (.obj [])
    ∧ (r.set_nutritional_info m).get_nutritional_info = .ok (.obj m)
    ∧ ({ sw with offered_recipe_ids := Option.none } : RecipeSwap).get_offered_recipe_ids
        = .ok (.arr [])
    ∧ ({ sw with offered_recipe_ids := Option.some "" } : RecipeSwap).get_offered_recipe_ids
        = .ok (.arr [])
    ∧ (sw.set_offered_recipe_ids v).get_offered_recipe_ids = .ok (.arr v) := by
  refine ⟨by simp [User.get_dietary_preferences], by simp [User.get_dietary_preferences], ?_,
    by simp [Recipe.get_ingredients], by simp [Recipe.get_ingredients], ?_,
    by simp [Recipe.get_tags], by simp [Recipe.get_tags], ?_,
    by simp [Recipe.get_nutritional_info], by simp [Recipe.get_nutritional_info], ?_,
    by simp [RecipeSwap.get_offered_recipe_ids], by simp [RecipeSwap.get_offered_recipe_ids], ?_⟩
  · simp [User.set_dietary_preferences, User.get_dietary_preferences,
      json_dumps_ne_empty, json_loads_dumps]
  · simp [Recipe.set_ingredients, Recipe.get_ingredients,
      json_dumps_ne_empty, json_loads_dumps]
  · simp [Recipe.set_tags, Recipe.get_tags, json_dumps_ne_empty, json_loads_dumps]
  · simp [Recipe.set_nutritional_info, Recipe.get_nutritional_info,
      json_dumps_ne_empty, json_loads_dumps]
  · simp [RecipeSwap.set_offered_recipe_ids, RecipeSwap.get_offered_recipe_ids,
      json_dumps_ne_empty, json_loads_dumps]

/-- A recipe whose ingredients column holds malformed serialized text. -/
def malformedRecipe : Recipe :=
  { sampleRecipe with ingredients := Option.some "not json" }

/-- Claim C4 counterexample: on malformed stored text, get_ingredients raises a
JSONDecodeError instead of returning the empty sequence claimed. -/
theorem get_ingredients_malformed_raises :
    malformedRecipe.get_ingredients = .error .mk
    ∧ malformedRecipe.get_ingredients ≠ .ok (.arr []) := by
  refine ⟨rfl, ?_⟩
  intro h
  rw [show malformedRecipe.get_ingredients = Except.error JSONDecodeError.mk from rfl] at h
  exact Except.noConfusion h

/-- Claim C4 amended: reading an encoded collection field returns the empty
sequence/mapping only on an unset or empty column; a truthy malformed
column makes the accessor fail with JSONDecodeError (the json.loads
exception propagates) rather than return empty. -/
theorem encoded_fields_malformed (u : User) (r : Recipe) (sw : RecipeSwap)
    (s : String) (hs : s ≠ "") (hbad : json_loads s = Option.none) :
    ({ u with dietary_preferences := Option.some s } : User).get_dietary_preferences
        = .error .mk
    ∧ ({ r with ingredients := Option.some s } : Recipe).get_ingredients = .error .mk
    ∧ ({ r with tags := Option.some s } : Recipe).get_tags = .error .mk
    ∧ ({ r with nutritional_info := Option.some s } : Recipe).get_nutritional_info
        = .error .mk
    ∧ ({ sw with offered_recipe_ids := Option.some s } : RecipeSwap).get_offered_recipe_ids
        = .error .mk := by
  refine ⟨?_, ?_, ?_, ?_, ?_⟩
  · simp [User.get_dietary_preferences, hs, hbad]
  · simp [Recipe.get_ingredients, hs, hbad]
  · simp [Recipe.get_tags, hs, hbad]
  · simp [Recipe.get_nutritional_info, hs, hbad]
  · simp [RecipeSwap.get_offered_recipe_ids, hs, hbad]

/-- Claim C4 amended witness: the amended theorem applied at the malformed
text "not json". -/
theorem encoded_fields_malformed_witness :
    ({ sampleUser with dietary_preferences := Option.some "not json" } : User).get_dietary_preferences
        = .error .mk
    ∧ ({ sampleRecipe with ingredients := Option.some "not json" } : Recipe).get_ingredients
        = .error .mk
    ∧ ({ sampleRecipe with tags := Option.some "not json" } : Recipe).get_tags = .error .mk
    ∧ ({ sampleRecipe with nutritional_info := Option.some "not json" } : Recipe).get_nutritional_info
        = .error .mk
    ∧ ({ sampleSwap with offered_recipe_ids := Option.some "not json" } : RecipeSwap).get_offered_recipe_ids
        = .error .mk :=
  encoded_fields_malformed sampleUser sampleRecipe sampleSwap "not json" (by decide) rfl

/-- A concrete acceptance timestamp. -/
def sampleTime : DateTime := { iso := "2024-01-01T10:00:00" }

/-- A concrete completion timestamp. -/
def sampleTime2 : DateTime := { iso := "2024-01-02T10:00:00" }

/-- Claim C5: pending→completed directly fails with InvalidTransitionError;
pending→accepted→completed succeeds, setting completed_at only on the
second step; completed_at changes exactly on transitions into completed. -/
theorem swap_lifecycle (sw : RecipeSwap) (t1 t2 : DateTime)
    (hst : sw.status = "pending") (hca : sw.completed_at = Option.none) :
    changeStatus sw .completed t1 = .error .mk
    ∧ (∃ sw1, changeStatus sw .accepted t1 = .ok sw1
        ∧ sw1.completed_at = Option.none
        ∧ sw1.status = "accepted"
        ∧ ∃ sw2, changeStatus sw1 .completed t2 = .ok sw2
            ∧ sw2.completed_at = Option.some t2
            ∧ sw2.status = "completed")
    ∧ (∀ swx newStatus now swy, changeStatus swx newStatus now = .ok swy →
        (newStatus = .completed → swy.completed_at = Option.some now)
        ∧ (newStatus ≠ .completed → swy.completed_at = swx.completed_at)) := by
  refine ⟨?_, ?_, ?_⟩
  · simp [changeStatus, hst, statusOfString, validTransition]
  · refine ⟨{ sw with status := "accepted", updated_at := Option.some t1 }, ?_, ?_, rfl, ?_⟩
    · simp [changeStatus, hst, statusOfString, validTransition, statusToString]
    · simpa using hca
    · refine ⟨{ sw with status := "completed", completed_at := Option.some t2, updated_at := Option.some t2 }, ?_, rfl, rfl⟩
      simp [changeStatus, statusOfString, validTransition, statusToString]
  · intro swx newStatus now swy h
    unfold changeStatus at h
    cases h0 : statusOfString swx.status with
    | none => rw [h0] at h; exact Except.noConfusion h
    | some cur =>
      rw [h0] at h
      dsimp only at h
      by_cases hv : validTransition cur newStatus = true
      · rw [if_pos hv] at h
        have hswy := Except.ok.inj h
        constructor
        · intro hc
          rw [← hswy]
          simp [hc]
        · intro hc
          rw [← hswy]
          simp [hc]
      · rw [if_neg hv] at h
        exact Except.noConfusion h

/-- Claim C5 witness: the lifecycle theorem applied to a concrete pending swap,
plus the concrete two-step run it guarantees. -/
theorem swap_lifecycle_witness :
    sampleSwap.status = "pending"
    ∧ sampleSwap.completed_at = Option.none
    ∧ changeStatus sampleSwap .completed sampleTime = .error .mk :=
  ⟨rfl, rfl, (swap_lifecycle sampleSwap sampleTime sampleTime2 rfl rfl).1⟩

/-- Claim C6: after a first review for a (recipe, reviewer) pair is inserted, a
second insert for the same pair fails with UniquenessViolation, by the
declared unique constraint. -/
theorem review_uniqueness (s : DBState) (rv1 rv2 : Review) (s1 : DBState)
    (h1 : insertReview s rv1 = .ok s1)
    (hrec : rv2.recipe_id = rv1.recipe_id)
    (hrev : rv2.reviewer_id = rv1.reviewer_id) :
    insertReview s1 rv2 = .error .mk := by
  unfold insertReview at h1 ⊢
  by_cases hc : s.reviews.any (fun r0 =>
      decide (r0.recipe_id = rv1.recipe_id) && decide (r0.reviewer_id = rv1.reviewer_id)) = true
  · rw [if_pos hc] at h1
    exact Except.noConfusion h1
  · rw [if_neg hc] at h1
    have hs1 : s1 = { s with reviews := s.reviews ++ [rv1] } := (Except.ok.inj h1).symm
    subst hs1
    rw [if_pos ?_]
    simp only [List.any_append, List.any_cons, List.any_nil, Bool.or_eq_true,
      Bool.and_eq_true, decide_eq_true_eq]
    right
    left
    exact ⟨hrec.symm, hrev.symm⟩

/-- Reviews used by the C6 witness. -/
def sampleReviewA : Review :=
  { sampleReview with id := 101, recipe_id := 20, reviewer_id := 1 }

/-- A second review for the same (recipe, reviewer) pair as sampleReviewA. -/
def sampleReviewB : Review :=
  { sampleReviewA with id := 102, rating := 2 }

/-- Claim C6 witness: the uniqueness theorem applied to concrete inserts. -/
theorem review_uniqueness_witness :
    insertReview ((insertReview sampleState sampleReviewA).toOption.getD sampleState)
        sampleReviewB = .error .mk :=
  review_uniqueness sampleState sampleReviewA sampleReviewB _ rfl rfl rfl

/-- Claim C7: deleting a user removes their recipes and reviews, removes
reviews and swaps attached to the deleted recipes, and keeps every swap
whose requested recipe is not among the deleted ones, even when the
deleted user is its requester or owner. -/
theorem user_delete_cascade (s : DBState) (uid : Int) :
    (∀ u ∈ (deleteUser s uid).users, u.id ≠ uid)
    ∧ (∀ r ∈ (deleteUser s uid).recipes, r.author_id ≠ uid)
    ∧ (∀ rv ∈ (deleteUser s uid).reviews, rv.reviewer_id ≠ uid)
    ∧ (∀ rv ∈ s.reviews,
        (∃ r ∈ s.recipes, r.author_id = uid ∧ r.id = rv.recipe_id) →
        rv ∉ (deleteUser s uid).reviews)
    ∧ (∀ sw ∈ s.swaps,
        (∃ r ∈ s.recipes, r.author_id = uid ∧ r.id = sw.recipe_id) →
        sw ∉ (deleteUser s uid).swaps)
    ∧ (∀ sw ∈ s.swaps,
        (∀ r ∈ s.recipes, ¬(r.author_id = uid ∧ r.id = sw.recipe_id)) →
        sw ∈ (deleteUser s uid).swaps) := by
  refine ⟨?_, ?_, ?_, ?_, ?_, ?_⟩
  · intro u hu
    simp only [deleteUser, List.mem_filter, Bool.not_eq_eq_eq_not, Bool.not_true,
      decide_eq_false_iff_not] at hu
    exact hu.2
  · intro r hr
    simp only [deleteUser, List.mem_filter, Bool.not_eq_eq_eq_not, Bool.not_true,
      decide_eq_false_iff_not] at hr
    exact hr.2
  · intro rv hrv
    simp only [deleteUser, List.mem_filter, Bool.and_eq_true, Bool.not_eq_eq_eq_not,
      Bool.not_true, decide_eq_false_iff_not] at hrv
    exact hrv.2.1
  · intro rv _ ⟨r, hrmem, hauth, hid⟩ hcontra
    simp only [deleteUser, List.mem_filter, Bool.and_eq_true, Bool.not_eq_eq_eq_not,
      Bool.not_true] at hcontra
    have hdead := hcontra.2.2
    rw [List.any_eq_false] at hdead
    exact absurd (by simp [hauth, hid] : (decide (r.author_id = uid)
      && decide (r.id = rv.recipe_id)) = true) (by simpa using hdead r hrmem)
  · intro sw _ ⟨r, hrmem, hauth, hid⟩ hcontra
    simp only [deleteUser, List.mem_filter, Bool.not_eq_eq_eq_not, Bool.not_true] at hcontra
    have hdead := hcontra.2
    rw [List.any_eq_false] at hdead
    exact absurd (by simp [hauth, hid] : (decide (r.author_id = uid)
      && decide (r.id = sw.recipe_id)) = true) (by simpa using hdead r hrmem)
  · intro sw hsw hall
    simp only [deleteUser, List.mem_filter, Bool.not_eq_eq_eq_not, Bool.not_true]
    refine ⟨hsw, ?_⟩
    rw [List.any_eq_false]
    intro r hrmem
    simp only [Bool.and_eq_true, decide_eq_true_eq, not_and]
    intro hauth hid
    exact hall r hrmem ⟨hauth, hid⟩

/-- Claim C7 witness: deleting user 1 from the sample state removes the swap on
user 1's recipe but keeps the swap on user 2's recipe even though user 1
is its requester. -/
theorem user_delete_cascade_witness :
    sampleSwap2 ∈ (deleteUser sampleState 1).swaps
    ∧ sampleSwap ∉ (deleteUser sampleState 1).swaps :=
  ⟨(user_delete_cascade sampleState 1).2.2.2.2.2 sampleSwap2 (by decide) (by decide),
    (user_delete_cascade sampleState 1).2.2.2.2.1 sampleSwap (by decide)
      ⟨sampleRecipe, by decide, by decide, by decide⟩⟩

/-! ### Dictionary lemmas for the view claims -/

theorem dictGet_append (d1 d2 : List (String × PyVal)) (k : String) :
    dictGet (d1 ++ d2) k
      = match dictGet d1 k with
        | Option.some v => Option.some v
        | Option.none => dictGet d2 k := by
  induction d1 with
  | nil => simp [dictGet]
  | cons kv rest ih =>
    obtain ⟨k2, v⟩ := kv
    by_cases hk : k2 = k
    · simp [dictGet, hk]
    · simp [dictGet, hk, ih]

theorem hasKey_append (d1 d2 : List (String × PyVal)) (k : String) :
    hasKey (d1 ++ d2) k = (hasKey d1 k || hasKey d2 k) := by
  unfold hasKey
  rw [dictGet_append]
  cases dictGet d1 k <;> simp

theorem dictGet_eq_none_of_hasKey (d : List (String × PyVal)) (k : String)
    (h : hasKey d k = false) : dictGet d k = Option.none := by
  unfold hasKey at h
  cases hd : dictGet d k with
  | none => rfl
  | some v => rw [hd] at h; simp at h

/-- Claim C3: the User view never contains password_hash and contains email
exactly when include_email is set. -/
theorem user_view_email (s : DBState) (u : User) (include_email : Bool)
    (d : List (String × PyVal)) (h : User.to_dict s u include_email = .ok d) :
    hasKey d "password_hash" = false
    ∧ (hasKey d "email" = true ↔ include_email = true) := by
  unfold User.to_dict at h
  cases hp : u.get_dietary_preferences with
  | error e => rw [hp] at h; exact Except.noConfusion h
  | ok prefs =>
    rw [hp] at h
    dsimp only at h
    cases include_email with
    | true =>
      rw [if_pos rfl] at h
      have hd := Except.ok.inj h
      rw [← hd]
      refine ⟨?_, ?_⟩
      · simp [hasKey, dictGet]
      · simp [hasKey_append, hasKey, dictGet]
    | false =>
      rw [if_neg (by simp)] at h
      have hd := Except.ok.inj h
      rw [← hd]
      refine ⟨?_, ?_⟩
      · simp [hasKey, dictGet]
      · simp [hasKey, dictGet]

/-- Claim C3 witness: the email/password-hash law at a concrete user and state. -/
theorem user_view_email_witness :
    hasKey ((User.to_dict sampleState sampleUser true).toOption.getD []) "password_hash" = false
    ∧ (hasKey ((User.to_dict sampleState sampleUser true).toOption.getD []) "email" = true
        ↔ true = true) :=
  user_view_email sampleState sampleUser true _ rfl

/-- Claim C9: the User view always carries recipe_count, the number of recipes
whose author is that user. -/
theorem user_view_recipe_count (s : DBState) (u : User) (include_email : Bool)
    (d : List (String × PyVal)) (h : User.to_dict s u include_email = .ok d) :
    dictGet d "recipe_count" = Option.some (PyVal.int (userRecipes s u.id).length) := by
  unfold User.to_dict at h
  cases hp : u.get_dietary_preferences with
  | error e => rw [hp] at h; exact Except.noConfusion h
  | ok prefs =>
    rw [hp] at h
    dsimp only at h
    cases include_email with
    | true =>
      rw [if_pos rfl] at h
      have hd := Except.ok.inj h
      rw [← hd, dictGet_append]
      simp [dictGet]
    | false =>
      rw [if_neg (by simp)] at h
      have hd := Except.ok.inj h
      rw [← hd]
      simp [dictGet]

/-- Claim C9 witness: recipe_count at the sample state, where user 1 owns one
recipe. -/
theorem user_view_recipe_count_witness :
    dictGet ((User.to_dict sampleState sampleUser false).toOption.getD []) "recipe_count"
      = Option.some (PyVal.int (userRecipes sampleState sampleUser.id).length) :=
  user_view_recipe_count sampleState sampleUser false _ rfl

/-- A Recipe view rendered without its author never has an author key. -/
theorem recipe_to_dict_no_author (s : DBState) (r : Recipe)
    (rd : List (String × PyVal)) (hrd : Recipe.to_dict s r false = .ok rd) :
    hasKey rd "author" = false := by
  unfold Recipe.to_dict at hrd
  cases hi : r.get_ingredients with
  | error e => rw [hi] at hrd; exact Except.noConfusion hrd
  | ok ingredients =>
  cases ht : r.get_tags with
  | error e => rw [hi, ht] at hrd; exact Except.noConfusion hrd
  | ok tags =>
  cases hn : r.get_nutritional_info with
  | error e => rw [hi, ht, hn] at hrd; exact Except.noConfusion hrd
  | ok nutrition =>
    rw [hi, ht, hn] at hrd
    dsimp only at hrd
    rw [if_neg (by simp)] at hrd
    have hd := Except.ok.inj hrd
    rw [← hd]
    simp [hasKey, dictGet]

/-- Claim C8: the swap view with include_recipe embeds the requested recipe's
view rendered without its author, bounding the nesting at one level. -/
theorem swap_view_recipe_embedding (s : DBState) (sw : RecipeSwap)
    (include_users : Bool) (r : Recipe) (d rd : List (String × PyVal))
    (hr : findRecipe s sw.recipe_id = Option.some r)
    (hrd : Recipe.to_dict s r false = .ok rd)
    (h : RecipeSwap.to_dict s sw include_users true = .ok d) :
    dictGet d "recipe" = Option.some (PyVal.dict rd)
    ∧ hasKey rd "author" = false := by
  refine ⟨?_, recipe_to_dict_no_author s r rd hrd⟩
  unfold RecipeSwap.to_dict at h
  cases ho : sw.get_offered_recipe_ids with
  | error e => rw [ho] at h; exact Except.noConfusion h
  | ok offered =>
    rw [ho] at h
    dsimp only at h
    cases include_users with
    | false =>
      rw [if_neg (by simp)] at h
      dsimp only at h
      rw [if_pos rfl, hr] at h
      dsimp only at h
      rw [hrd] at h
      dsimp only at h
      have hd := Except.ok.inj h
      rw [← hd, dictGet_append]
      simp [dictGet]
    | true =>
      rw [if_pos rfl] at h
      cases hfr : findUser s sw.requester_id with
      | none =>
        rw [hfr] at h
        dsimp only at h
        cases hfo : findUser s sw.owner_id with
        | none =>
          rw [hfo] at h
          dsimp only at h
          rw [if_pos rfl, hr] at h
          dsimp only at h
          rw [hrd] at h
          dsimp only at h
          have hd := Except.ok.inj h
          rw [← hd, dictGet_append]
          simp [dictGet]
        | some uo =>
          rw [hfo] at h
          dsimp only at h
          cases huo : User.to_dict s uo false with
          | error e => rw [huo] at h; exact Except.noConfusion h
          | ok udo =>
            rw [huo] at h
            dsimp only at h
            rw [if_pos rfl, hr] at h
            dsimp only at h
            rw [hrd] at h
            dsimp only at h
            have hd := Except.ok.inj h
            rw [← hd, dictGet_append, dictGet_append]
            simp [dictGet]
      | some ur =>
        rw [hfr] at h
        dsimp only at h
        cases hur : User.to_dict s ur false with
        | error e => rw [hur] at h; exact Except.noConfusion h
        | ok udr =>
          rw [hur] at h
          dsimp only at h
          cases hfo : findUser s sw.owner_id with
          | none =>
            rw [hfo] at h
            dsimp only at h
            rw [if_pos rfl, hr] at h
            dsimp only at h
            rw [hrd] at h
            dsimp only at h
            have hd := Except.ok.inj h
            rw [← hd, dictGet_append, dictGet_append]
            simp [dictGet]
          | some uo =>
            rw [hfo] at h
            dsimp only at h
            cases huo : User.to_dict s uo false with
            | error e => rw [huo] at h; exact Except.noConfusion h
            | ok udo =>
              rw [huo] at h
              dsimp only at h
              rw [if_pos rfl, hr] at h
              dsimp only at h
              rw [hrd] at h
              dsimp only at h
              have hd := Except.ok.inj h
              rw [← hd, dictGet_append, dictGet_append, dictGet_append]
              simp [dictGet]

/-- Claim C8 witness: the embedding law at the sample state, where sampleSwap
requests sampleRecipe. -/
theorem swap_view_recipe_embedding_witness :
    dictGet ((RecipeSwap.to_dict sampleState sampleSwap true true).toOption.getD []) "recipe"
      = Option.some (PyVal.dict ((Recipe.to_dict sampleState sampleRecipe false).toOption.getD []))
    ∧ hasKey ((Recipe.to_dict sampleState sampleRecipe false).toOption.getD []) "author" = false :=
  swap_view_recipe_embedding sampleState sampleSwap true sampleRecipe _ _ rfl rfl rfl

/-- Claim C10: with an embed flag enabled but the related entity absent, the
views omit the embedded key entirely rather than mapping it to null. -/
theorem absent_embeds_omitted (s : DBState) (rv : Review) (r : Recipe)
    (sw : RecipeSwap) (drv dr dsw : List (String × PyVal))
    (hrv : findUser s rv.reviewer_id = Option.none)
    (hra : findUser s r.author_id = Option.none)
    (hsr : findUser s sw.requester_id = Option.none)
    (hso : findUser s sw.owner_id = Option.none)
    (hsc : findRecipe s sw.recipe_id = Option.none)
    (h1 : Review.to_dict s rv true = .ok drv)
    (h2 : Recipe.to_dict s r true = .ok dr)
    (h3 : RecipeSwap.to_dict s sw true true = .ok dsw) :
    hasKey drv "reviewer" = false
    ∧ hasKey dr "author" = false
    ∧ hasKey dsw "requester" = false
    ∧ hasKey dsw "owner" = false
    ∧ hasKey dsw "recipe" = false := by
  refine ⟨?_, ?_, ?_⟩
  · unfold Review.to_dict at h1
    dsimp only at h1
    rw [if_pos rfl, hrv] at h1
    have hd := Except.ok.inj h1
    rw [← hd]
    simp [hasKey, dictGet]
  · unfold Recipe.to_dict at h2
    cases hi : r.get_ingredients with
    | error e => rw [hi] at h2; exact Except.noConfusion h2
    | ok ingredients =>
    cases ht : r.get_tags with
    | error e => rw [hi, ht] at h2; exact Except.noConfusion h2
    | ok tags =>
    cases hn : r.get_nutritional_info with
    | error e => rw [hi, ht, hn] at h2; exact Except.noConfusion h2
    | ok nutrition =>
      rw [hi, ht, hn] at h2
      dsimp only at h2
      rw [if_pos rfl, hra] at h2
      have hd := Except.ok.inj h2
      rw [← hd]
      simp [hasKey, dictGet]
  · unfold RecipeSwap.to_dict at h3
    cases ho : sw.get_offered_recipe_ids with
    | error e => rw [ho] at h3; exact Except.noConfusion h3
    | ok offered =>
      rw [ho] at h3
      dsimp only at h3
      rw [if_pos rfl, hsr] at h3
      dsimp only at h3
      rw [hso] at h3
      dsimp only at h3
      rw [if_pos rfl, hsc] at h3
      have hd := Except.ok.inj h3
      rw [← hd]
      refine ⟨by simp [hasKey, dictGet], by simp [hasKey, dictGet], by simp [hasKey, dictGet]⟩

/-- An empty database state: every foreign key dangles. -/
def emptyState : DBState := { users := [], recipes := [], reviews := [], swaps := [] }

/-- Claim C10 witness: against the empty state every embed flag is a no-op for
the sample rows. -/
theorem absent_embeds_omitted_witness :
    hasKey ((Review.to_dict emptyState sampleReview true).toOption.getD []) "reviewer" = false
    ∧ hasKey ((Recipe.to_dict emptyState sampleRecipe true).toOption.getD []) "author" = false
    ∧ hasKey ((RecipeSwap.to_dict emptyState sampleSwap true true).toOption.getD []) "requester" = false
    ∧ hasKey ((RecipeSwap.to_dict emptyState sampleSwap true true).toOption.getD []) "owner" = false
    ∧ hasKey ((RecipeSwap.to_dict emptyState sampleSwap true true).toOption.getD []) "recipe" = false :=
  absent_embeds_omitted emptyState sampleReview sampleRecipe sampleSwap _ _ _
    rfl rfl rfl rfl rfl rfl rfl rfl
